import Mathlib

/-!
# kitchenPal front end (`src/frontend/app.js`)

A shallow embedding of the browser client: the text parsers of the recipe
form, the request wrapper `api.request`, and the event handlers (submit,
edit, delete, reload, ask, promote) as state-passing functions over an
explicit page state.

Strings are sequences of Unicode scalar values; every character the parsers
inspect (white space, comma, newline) is a single UTF-16 code unit, so
splitting and trimming agree with the code-unit semantics of JavaScript.
Each handler runs to completion before the next event: overlapping requests
are outside this development.
-/

namespace KitchenPal

/-! ## JavaScript strings -/

/-- Code points removed by `String.prototype.trim`: the ECMAScript `WhiteSpace`
and `LineTerminator` productions (TAB, VT, FF, SP, NBSP, ZWNBSP, the `Zs`
category, LF, CR, LS, PS). -/
def isJsWhiteSpace (c : Char) : Bool :=
  let n := c.toNat
  n == 0x09 || n == 0x0A || n == 0x0B || n == 0x0C || n == 0x0D || n == 0x20 ||
  n == 0xA0 || n == 0x1680 || (0x2000 ≤ n && n ≤ 0x200A) || n == 0x2028 ||
  n == 0x2029 || n == 0x202F || n == 0x205F || n == 0x3000 || n == 0xFEFF

/-- Characters of `s.trim()`: leading and trailing white space removed. -/
def trimChars (cs : List Char) : List Char :=
  ((cs.dropWhile isJsWhiteSpace).reverse.dropWhile isJsWhiteSpace).reverse

/-- `s.trim()`. -/
def jsTrim (s : String) : String := ⟨trimChars s.data⟩

/-- Pieces of `s.split(/[...]+/)` for a character class `sep`, on the
characters of `s`.  A match of the pattern is a maximal run of separator
characters; every run closes the piece before it, and the text after the last
run (possibly empty) is the last piece.  `inRun` is true while the characters
just read belong to a run that has already closed its piece. -/
def splitRuns (sep : Char → Bool) : Bool → List Char → List (List Char)
  | _, [] => [[]]
  | inRun, c :: cs =>
    if sep c then
      if inRun then splitRuns sep true cs else [] :: splitRuns sep true cs
    else
      match splitRuns sep false cs with
      | [] => [[c]]
      | p :: ps => (c :: p) :: ps

/-- `s.split(re)` where `re` is `/[...]+/` over the character class `sep`. -/
def jsSplitRuns (sep : Char → Bool) (s : String) : List String :=
  (splitRuns sep false s.data).map String.mk

/-- `xs.join(sep)`. -/
def jsJoin (sep : String) (xs : List String) : String :=
  ⟨List.intercalate sep.data (xs.map String.data)⟩

/-- `Boolean(s)` for a string: only the empty string is falsy. -/
def strTruthy (s : String) : Bool := s != ""

/-- Source `parseList`: `value.split(/\n+/).map(trim).filter(Boolean)`. -/
def parseList (value : String) : List String :=
  ((jsSplitRuns (fun c => c == '\n') value).map jsTrim).filter strTruthy

/-- Source `parseTags`: `value.split(/[,\n]+/).map(trim).filter(Boolean)`. -/
def parseTags (value : String) : List String :=
  ((jsSplitRuns (fun c => c == ',' || c == '\n') value).map jsTrim).filter strTruthy

/-! ### The parsers as the specification words them -/

/-- Cut a character list at every single separator character. -/
def cutAt (sep : Char → Bool) : List Char → List (List Char)
  | [] => [[]]
  | c :: cs =>
    if sep c then [] :: cutAt sep cs
    else
      match cutAt sep cs with
      | [] => [[c]]
      | p :: ps => (c :: p) :: ps

/-- The specification of list parsing: cut at each newline character, trim
each piece, discard the pieces that are empty after trimming. -/
def parseList_spec (s : String) : List String :=
  (((cutAt (fun c => c == '\n') s.data).map String.mk).map jsTrim).filter (fun p => p != "")

/-- The specification of tag parsing: cut at each comma and each newline
character, trim each piece, discard the pieces that are empty after trimming. -/
def parseTags_spec (s : String) : List String :=
  (((cutAt (fun c => c == ',' || c == '\n') s.data).map String.mk).map jsTrim).filter
    (fun p => p != "")

/-! ## Data model -/

/-- A recipe identifier as it arrives in a JSON response: null (or missing),
a number, or a string. -/
inductive JsId
  | null
  | num (n : Int)
  | str (s : String)
  deriving DecidableEq

/-- JavaScript truthiness of an identifier, as tested by `if (editingId)`. -/
def JsId.truthy : JsId → Bool
  | .null => false
  | .num n => n != 0
  | .str s => s != ""

/-- Text of an identifier inside a template literal. -/
def JsId.toText : JsId → String
  | .null => "null"
  | .num n => toString n
  | .str s => s

/-- A recipe as the REST surface delivers it: the three list fields are present,
the description may be missing. -/
structure Recipe where
  id : JsId
  title : String
  description : Option String
  ingredients : List String
  steps : List String
  tags : List String
  deriving DecidableEq

/-- The object built by the submit handler and sent to create or update. -/
structure Payload where
  title : String
  description : Option String
  ingredients : List String
  steps : List String
  tags : List String
  deriving DecidableEq

/-- One turn of the conversation transcript. -/
structure Turn where
  role : String
  content : String
  deriving DecidableEq

/-- The JSON value answered by `/chat/respond`. -/
structure ChatReply where
  reply : String
  suggestions : List Recipe
  deriving DecidableEq

/-- The value handed to `JSON.stringify` for the request body. -/
inductive Body
  | empty
  | payload (p : Payload)
  | recipe (r : Recipe)
  | messages (ms : List Turn)
  deriving DecidableEq

/-- The `options` argument of `api.request`. -/
structure Options where
  method : Option String := none
  headers : List (String × String) := []
  body : Body := Body.empty
  deriving DecidableEq

/-- A call of `fetch(path, options)`. -/
structure Request where
  path : String
  method : Option String
  headers : List (String × String)
  body : Body
  deriving DecidableEq

/-- What the handlers read of a `fetch` response. -/
structure Response where
  status : Nat
  body : String
  deriving DecidableEq

/-- The `response.ok` flag: the status is in the range 200 to 299. -/
def Response.ok (r : Response) : Bool := 200 ≤ r.status && r.status ≤ 299

/-- Values of the controls of the recipe form; a control returns the string
last stored in it. -/
structure Form where
  title : String
  description : String
  ingredients : String
  steps : String
  tags : String
  deriving DecidableEq

/-- Everything outside the script.  A thrown `Error` is represented by its
message.  `fetch` answers a request given the requests issued before it (or
fails in transport); the `json...` fields stand for `response.json()` read at
the shape the REST surface promises for the endpoint; `confirm` is the answer
of the user to a confirmation dialog; `nullDeref` is the engine-defined message
of the `TypeError` raised by reading a property of `null`; `formDefaults` are
the values `recipeForm.reset()` restores. -/
structure Env where
  fetch : List Request → Request → Except String Response
  jsonRecipes : String → Except String (List Recipe)
  jsonRecipe : String → Except String Recipe
  jsonChat : String → Except String ChatReply
  jsonAny : String → Except String Unit
  confirm : String → Bool
  nullDeref : String
  formDefaults : Form

/-- A recipe card built by `createCard`; `recipe` is the value captured by the
edit and delete listeners. -/
structure Card where
  title : String
  description : String
  ingredients : List String
  steps : List String
  tags : List String
  recipe : Recipe
  deriving DecidableEq

/-- A child of the recipe grid: markup assigned through `innerHTML`, or a card. -/
inductive Node
  | markup (html : String)
  | card (c : Card)
  deriving DecidableEq

/-- A suggestion card built by `renderSuggestions`. -/
structure SuggestionCard where
  heading : String
  paragraph : String
  small : String
  buttonText : String
  buttonDisabled : Bool
  recipe : Recipe
  deriving DecidableEq

/-- The page: the two script globals, the DOM state the script reads and
writes, the notifications shown by `alert`, and the requests issued so far. -/
structure Page where
  editingId : JsId
  chatHistory : List Turn
  form : Form
  formStatus : String
  formTitle : String
  cancelEditHidden : Bool
  recipeGrid : List Node
  chatStatus : String
  chatReply : String
  chatSuggestions : List SuggestionCard
  chatBtnDisabled : Bool
  openaiKeyInput : String
  chatPrompt : String
  alerts : List String
  log : List Request
  deriving DecidableEq

/-- The empty form. -/
def Form.blank : Form := ⟨"", "", "", "", ""⟩

/-- The page when the script starts: `editingId = null`, `chatHistory = []`. -/
def Page.start : Page :=
  { editingId := JsId.null, chatHistory := [], form := Form.blank, formStatus := "",
    formTitle := "Create Recipe", cancelEditHidden := true, recipeGrid := [],
    chatStatus := "", chatReply := "", chatSuggestions := [], chatBtnDisabled := false,
    openaiKeyInput := "", chatPrompt := "", alerts := [], log := [] }

/-! ## Remote catalog client (`api`) -/

/-- Source `api.request`: one `fetch`; a response that is not ok throws an
`Error` with the body text, or `"Request failed"` when the text is empty;
status 204 returns `null`; otherwise `response.json()`. -/
def api.request {α : Type} (env : Env) (json : String → Except String α) (path : String)
    (options : Options) (log : List Request) : Except String (Option α) × List Request :=
  let headers := ("Content-Type", "application/json") :: options.headers
  let req : Request := ⟨path, options.method, headers, options.body⟩
  match env.fetch log req with
  | .error e => (.error e, log ++ [req])
  | .ok response =>
    if !response.ok then
      let message := response.body
      (.error (if strTruthy message then message else "Request failed"), log ++ [req])
    else if response.status == 204 then
      (.ok none, log ++ [req])
    else
      ((json response.body).map some, log ++ [req])

/-- Source `api.listRecipes`. -/
def api.listRecipes (env : Env) (log : List Request) :=
  api.request env env.jsonRecipes "/recipes/" {} log

/-- Source `api.createRecipe`. -/
def api.createRecipe (env : Env) (payload : Payload) (log : List Request) :=
  api.request env env.jsonRecipe "/recipes/"
    { method := some "POST", body := Body.payload payload } log

/-- Source `api.updateRecipe`. -/
def api.updateRecipe (env : Env) (id : JsId) (payload : Payload) (log : List Request) :=
  api.request env env.jsonRecipe ("/recipes/" ++ id.toText)
    { method := some "PUT", body := Body.payload payload } log

/-- Source `api.deleteRecipe`. -/
def api.deleteRecipe (env : Env) (id : JsId) (log : List Request) :=
  api.request env env.jsonAny ("/recipes/" ++ id.toText) { method := some "DELETE" } log

/-- Source `api.saveChatRecipe`. -/
def api.saveChatRecipe (env : Env) (recipe : Recipe) (log : List Request) :=
  api.request env env.jsonRecipe "/chat/recipes"
    { method := some "POST", body := Body.recipe recipe } log

/-- Source `api.chat`. -/
def api.chat (env : Env) (messages : List Turn) (apiKey : String) (log : List Request) :=
  api.request env env.jsonChat "/chat/respond"
    { method := some "POST", headers := [("X-OpenAI-Key", apiKey)],
      body := Body.messages messages } log

/-! ## Handlers

A handler maps the page to the page it leaves behind, together with the
outcome of its promise: `.ok ()` when it completes, `.error m` when an `Error`
with message `m` escapes it. -/

/-- The operand `x || ""` for an optional string. -/
def orEmpty : Option String → String
  | some x => if strTruthy x then x else ""
  | none => ""

/-- Source `populateForm`. -/
def populateForm (recipe : Recipe) (s : Page) : Page :=
  { s with form :=
      { title := if strTruthy recipe.title then recipe.title else ""
        description := orEmpty recipe.description
        ingredients := jsJoin "\n" recipe.ingredients
        steps := jsJoin "\n" recipe.steps
        tags := jsJoin ", " recipe.tags } }

/-- Source `resetForm`. -/
def resetForm (env : Env) (s : Page) : Page :=
  { s with form := env.formDefaults, editingId := JsId.null, formTitle := "Create Recipe",
           cancelEditHidden := true, formStatus := "" }

/-- Source `handleEdit` (the final `focus()` call changes nothing modelled here). -/
def handleEdit (recipe : Recipe) (s : Page) : Page :=
  let s1 := { s with editingId := recipe.id }
  let s2 := populateForm recipe s1
  { s2 with formTitle := "Edit Recipe", cancelEditHidden := false }

/-- Source `createCard`, without the listeners (see `deleteClick`, `handleEdit`). -/
def createCard (recipe : Recipe) : Card :=
  { title := recipe.title
    description := orEmpty recipe.description
    ingredients := recipe.ingredients
    steps := recipe.steps
    tags := recipe.tags
    recipe := recipe }

/-- Markup of the failure placeholder of the grid. -/
def loadFailureMarkup (message : String) : String :=
  "<p class=\"status\">Failed to load recipes: " ++ message ++ "</p>"

/-- Markup of the placeholder for an empty catalog. -/
def noRecipesMarkup : String := "<p>No recipes yet. Start by creating one.</p>"

/-- Source `loadRecipes`.  A `null` result makes `recipes.length` raise a
`TypeError`, which the `catch` renders like any other failure. -/
def loadRecipes (env : Env) (s : Page) : Except String Unit × Page :=
  let s0 := { s with recipeGrid := [] }
  match api.listRecipes env s0.log with
  | (.ok (some recipes), log1) =>
    if recipes.length == 0 then
      (.ok (), { s0 with log := log1, recipeGrid := [Node.markup noRecipesMarkup] })
    else
      let fragment := recipes.map (fun recipe => Node.card (createCard recipe))
      (.ok (), { s0 with log := log1, recipeGrid := s0.recipeGrid ++ fragment })
  | (.ok none, log1) =>
    (.ok (), { s0 with log := log1, recipeGrid := [Node.markup (loadFailureMarkup env.nullDeref)] })
  | (.error message, log1) =>
    (.ok (), { s0 with log := log1, recipeGrid := [Node.markup (loadFailureMarkup message)] })

/-- The listener of the delete button of the card of `recipe` (in `createCard`):
no `try` surrounds the two awaited calls. -/
def deleteClick (env : Env) (recipe : Recipe) (s : Page) : Except String Unit × Page :=
  if !env.confirm ("Delete " ++ recipe.title ++ "?") then (.ok (), s)
  else
    match api.deleteRecipe env recipe.id s.log with
    | (.error message, log1) => (.error message, { s with log := log1 })
    | (.ok _, log1) => loadRecipes env { s with log := log1 }

/-- The payload object built at the start of the submit listener. -/
def buildPayload (form : Form) : Payload :=
  { title := jsTrim form.title
    description :=
      let d := jsTrim form.description
      if strTruthy d then some d else none
    ingredients := parseList form.ingredients
    steps := parseList form.steps
    tags := parseTags form.tags }

/-- The call inside the `try` of the submit listener: `updateRecipe` when
`editingId` is truthy, `createRecipe` otherwise (the returned recipe is not used). -/
def submitCall (env : Env) (s : Page) (payload : Payload) : Except String Unit × List Request :=
  if s.editingId.truthy then
    match api.updateRecipe env s.editingId payload s.log with
    | (r, log1) => (r.map (fun _ => ()), log1)
  else
    match api.createRecipe env payload s.log with
    | (r, log1) => (r.map (fun _ => ()), log1)

/-- The submit listener of the recipe form. -/
def submit (env : Env) (s : Page) : Except String Unit × Page :=
  let payload := buildPayload s.form
  let s1 := { s with formStatus := "Saving..." }
  match submitCall env s1 payload with
  | (.ok _, log1) =>
    let s2 := { s1 with log := log1, formStatus := "Saved!" }
    let s3 := resetForm env s2
    match loadRecipes env s3 with
    | (.ok _, s4) => (.ok (), s4)
    | (.error message, s4) => (.ok (), { s4 with formStatus := message })
  | (.error message, log1) =>
    (.ok (), { s1 with log := log1, formStatus := message })

/-- One card of `renderSuggestions`. -/
def suggestionCard (recipe : Recipe) : SuggestionCard :=
  { heading := recipe.title
    paragraph := orEmpty recipe.description
    small := toString recipe.ingredients.length ++ " ingredients, " ++
      toString recipe.steps.length ++ " steps"
    buttonText := "Save to Catalog"
    buttonDisabled := false
    recipe := recipe }

/-- Source `renderSuggestions`, without the listeners (see `saveClick`). -/
def renderSuggestions (suggestions : List Recipe) (s : Page) : Page :=
  let s0 := { s with chatSuggestions := [] }
  if suggestions.length == 0 then s0
  else { s0 with chatSuggestions := s0.chatSuggestions ++ suggestions.map suggestionCard }

/-- The listener of the button of the `i`-th suggestion card (in
`renderSuggestions`). -/
def saveClick (env : Env) (i : Nat) (s : Page) : Except String Unit × Page :=
  match s.chatSuggestions.get? i with
  | none => (.ok (), s)
  | some card =>
    match api.saveChatRecipe env card.recipe s.log with
    | (.ok _, log1) =>
      match loadRecipes env { s with log := log1 } with
      | (.ok _, s2) =>
        let saved := { card with buttonText := "Saved", buttonDisabled := true }
        (.ok (), { s2 with chatSuggestions := s2.chatSuggestions.set i saved })
      | (.error message, s2) =>
        (.ok (), { s2 with alerts := s2.alerts ++ ["Failed to save recipe: " ++ message] })
    | (.error message, log1) =>
      (.ok (), { s with log := log1,
                        alerts := s.alerts ++ ["Failed to save recipe: " ++ message] })

/-- Source `askKitchenPal`.  A `null` result makes `response.reply` raise a
`TypeError` before the assistant turn is pushed. -/
def askKitchenPal (env : Env) (s : Page) : Except String Unit × Page :=
  let apiKey := jsTrim s.openaiKeyInput
  let prompt := jsTrim s.chatPrompt
  if !strTruthy apiKey then
    (.ok (), { s with chatStatus := "Enter your OpenAI API key." })
  else if !strTruthy prompt then
    (.ok (), { s with chatStatus := "Ask a question first." })
  else
    let s1 := { s with chatStatus := "Asking KitchenPal...", chatReply := "",
                       chatSuggestions := [], chatBtnDisabled := true }
    let s2 := { s1 with chatHistory := s1.chatHistory ++ [Turn.mk "user" prompt] }
    let s5 :=
      match api.chat env s2.chatHistory apiKey s2.log with
      | (.ok (some response), log1) =>
        let s3 := { s2 with log := log1,
                            chatHistory := s2.chatHistory ++ [Turn.mk "assistant" response.reply],
                            chatReply := response.reply }
        let s4 := renderSuggestions response.suggestions s3
        { s4 with chatStatus := "" }
      | (.ok none, log1) => { s2 with log := log1, chatStatus := env.nullDeref }
      | (.error message, log1) => { s2 with log := log1, chatStatus := message }
    (.ok (), { s5 with chatBtnDisabled := false })

/-! ## Observations used by the statements -/

/-- The header every request carries. -/
def jsonHeader : String × String := ("Content-Type", "application/json")

/-- The request of `list()`. -/
def listRequest : Request := ⟨"/recipes/", none, [jsonHeader], Body.empty⟩

/-- The request of `create(payload)`. -/
def createRequest (payload : Payload) : Request :=
  ⟨"/recipes/", some "POST", [jsonHeader], Body.payload payload⟩

/-- The request of `update(id, payload)`. -/
def updateRequest (id : JsId) (payload : Payload) : Request :=
  ⟨"/recipes/" ++ id.toText, some "PUT", [jsonHeader], Body.payload payload⟩

/-- The request of `delete(id)`. -/
def deleteRequest (id : JsId) : Request :=
  ⟨"/recipes/" ++ id.toText, some "DELETE", [jsonHeader], Body.empty⟩

/-- The request of `promoteSuggestion(recipe)`. -/
def saveRequest (recipe : Recipe) : Request :=
  ⟨"/chat/recipes", some "POST", [jsonHeader], Body.recipe recipe⟩

/-- The request of `converse(transcript, credential)`. -/
def chatRequest (messages : List Turn) (apiKey : String) : Request :=
  ⟨"/chat/respond", some "POST", [jsonHeader, ("X-OpenAI-Key", apiKey)], Body.messages messages⟩

/-- The request a submit sends for a page and a payload: the update call for
the edit target when `editingId` is truthy, the create call otherwise. -/
def submitRequest (s : Page) (payload : Payload) : Request :=
  if s.editingId.truthy then updateRequest s.editingId payload else createRequest payload

/-- The request is a create call, whatever its payload. -/
def Request.isCreate (r : Request) : Bool := r.path == "/recipes/" && r.method == some "POST"

/-- The request is an update call, whatever its target and payload. -/
def Request.isUpdate (r : Request) : Bool := r.method == some "PUT"

/-- The requests a handler issued: what it appended to the log. -/
def issued (s : Page) (out : Except String Unit × Page) : List Request :=
  out.2.log.drop s.log.length

/-- An environment whose server answers every request with the same response
and whose decoders accept every body. -/
def constEnv (resp : Except String Response) (recipes : List Recipe) (chat : ChatReply) : Env :=
  { fetch := fun _ _ => resp
    jsonRecipes := fun _ => .ok recipes
    jsonRecipe := fun _ => .ok ⟨JsId.num 1, "", none, [], [], []⟩
    jsonChat := fun _ => .ok chat
    jsonAny := fun _ => .ok ()
    confirm := fun _ => true
    nullDeref := "null has no properties"
    formDefaults := Form.blank }

/-- A catalog recipe whose identifier is the number zero. -/
def zeroIdRecipe : Recipe := ⟨JsId.num 0, "Soup", none, ["water"], ["boil"], ["easy"]⟩

/-- A catalog recipe with identifier one. -/
def soupRecipe : Recipe := ⟨JsId.num 1, "Soup", none, ["water", "salt"], ["boil"], ["easy", "hot"]⟩

/-- A server that accepts every request. -/
def okEnv : Env := constEnv (.ok ⟨200, "{}"⟩) [soupRecipe] ⟨"Try soup.", []⟩

/-- A server that refuses every request with status 500 and body `boom`. -/
def failEnv : Env := constEnv (.ok ⟨500, "boom"⟩) [] ⟨"", []⟩

/-- A list entry the form round-trips: non-empty, no white space at either
end, and none of the characters of the class `sep` inside. -/
def Clean (sep : Char → Bool) (x : String) : Prop :=
  x ≠ "" ∧ (∀ c, x.data.head? = some c → isJsWhiteSpace c = false) ∧
    (∀ c, x.data.getLast? = some c → isJsWhiteSpace c = false) ∧ ∀ c ∈ x.data, sep c = false

/-! ## Splitting and trimming -/

theorem cutAt_ne_nil (sep : Char → Bool) (cs : List Char) : cutAt sep cs ≠ [] := by
  cases cs with
  | nil => simp [cutAt]
  | cons c cs =>
    simp only [cutAt]
    split
    · simp
    · split <;> simp

/-- Splitting at runs and cutting at single separators agree on the first
piece and, up to empty pieces, on the rest; entering inside a run only drops
an empty first piece. -/
theorem splitRuns_cutAt (sep : Char → Bool) (cs : List Char) :
    ∃ h t t', cutAt sep cs = h :: t' ∧ splitRuns sep false cs = h :: t ∧
      t.filter (fun p => !p.isEmpty) = t'.filter (fun p => !p.isEmpty) ∧
      (splitRuns sep true cs = h :: t ∨ (h = [] ∧ splitRuns sep true cs = t)) := by
  induction cs with
  | nil => exact ⟨[], [], [], by simp [cutAt], by simp [splitRuns], rfl, Or.inl (by simp [splitRuns])⟩
  | cons c cs ih =>
    obtain ⟨h, t, t', h1, h2, h3, h4⟩ := ih
    by_cases hc : sep c = true
    · refine ⟨[], splitRuns sep true cs, cutAt sep cs, by simp [cutAt, hc],
        by simp [splitRuns, hc], ?_, Or.inr ⟨rfl, by simp [splitRuns, hc]⟩⟩
      rcases h4 with h4 | ⟨h5, h4⟩
      · rw [h4, h1]; simp [List.filter_cons, h3]
      · rw [h4, h1, h5]; simp [List.filter_cons, h3]
    · refine ⟨c :: h, t, t', by simp [cutAt, hc, h1], by simp [splitRuns, hc, h2], h3,
        Or.inl (by simp [splitRuns, hc, h2])⟩

theorem splitRuns_filter (sep : Char → Bool) (cs : List Char) :
    (splitRuns sep false cs).filter (fun p => !p.isEmpty) =
      (cutAt sep cs).filter (fun p => !p.isEmpty) := by
  obtain ⟨h, t, t', h1, h2, h3, _⟩ := splitRuns_cutAt sep cs
  rw [h1, h2]
  simp [List.filter_cons, h3]

theorem strTruthy_jsTrim_mk_nil : strTruthy (jsTrim (String.mk [])) = false := by decide

/-- Empty pieces never survive trimming and filtering. -/
theorem trim_filter_drop_empty (ps : List (List Char)) :
    ((ps.map String.mk).map jsTrim).filter strTruthy =
      (((ps.filter (fun p => !p.isEmpty)).map String.mk).map jsTrim).filter strTruthy := by
  induction ps with
  | nil => rfl
  | cons p ps ih =>
    cases p with
    | nil => simpa [List.filter_cons, strTruthy_jsTrim_mk_nil] using ih
    | cons c p =>
      simp only [List.map_cons, List.filter_cons, List.isEmpty_cons, Bool.not_false, if_true, ih]

theorem parse_eq_cut (sep : Char → Bool) (s : String) :
    ((jsSplitRuns sep s).map jsTrim).filter strTruthy =
      (((cutAt sep s.data).map String.mk).map jsTrim).filter (fun p => p != "") := by
  have hf : (fun p : String => p != "") = strTruthy := rfl
  rw [hf, jsSplitRuns, trim_filter_drop_empty, splitRuns_filter, ← trim_filter_drop_empty]

/-- C2: for every string, `parseList` is: cut at each newline character, trim
each piece, drop the pieces that are empty after trimming (order and
duplicates kept); and `parseList "a\n\nb\n" = ["a", "b"]`. -/
theorem parseList_refines_spec :
    (∀ s : String, parseList s = parseList_spec s) ∧ parseList "a\n\nb\n" = ["a", "b"] :=
  ⟨fun s => parse_eq_cut _ s, by decide⟩

/-- C3: for every string, `parseTags` is: cut at each comma and each newline
character, trim each piece, drop the pieces that are empty after trimming
(order kept); and `parseTags "x, y\nz" = ["x", "y", "z"]`. -/
theorem parseTags_refines_spec :
    (∀ s : String, parseTags s = parseTags_spec s) ∧ parseTags "x, y\nz" = ["x", "y", "z"] :=
  ⟨fun s => parse_eq_cut _ s, by decide⟩

/-! ## Round trip through the form -/

theorem cutAt_append (sep : Char → Bool) (x rest : List Char) (hx : ∀ c ∈ x, sep c = false) :
    ∃ p ps, cutAt sep rest = p :: ps ∧ cutAt sep (x ++ rest) = (x ++ p) :: ps := by
  induction x with
  | nil =>
    cases h : cutAt sep rest with
    | nil => exact absurd h (cutAt_ne_nil sep rest)
    | cons p ps => exact ⟨p, ps, rfl, by simpa using h⟩
  | cons c x ih =>
    obtain ⟨p, ps, h1, h2⟩ := ih (fun d hd => hx d (List.mem_cons_of_mem c hd))
    have hc : sep c = false := hx c (List.mem_cons_self c x)
    exact ⟨p, ps, h1, by simp [cutAt, hc, h2]⟩

theorem cutAt_intercalate (sep : Char → Bool) (d : Char) (pad : List Char) (hd : sep d = true)
    (hpad : ∀ c ∈ pad, sep c = false) (x : List Char) (xs : List (List Char))
    (hx : ∀ y ∈ x :: xs, ∀ c ∈ y, sep c = false) :
    cutAt sep (List.intercalate (d :: pad) (x :: xs)) = x :: xs.map (fun y => pad ++ y) := by
  induction xs generalizing x with
  | nil =>
    obtain ⟨p, ps, h1, h2⟩ := cutAt_append sep x [] (hx x (List.mem_cons_self x []))
    simp only [cutAt, List.cons.injEq] at h1
    simpa [List.intercalate, ← h1.1, ← h1.2] using h2
  | cons y ys ih =>
    have hy := ih y (fun z hz => hx z (List.mem_cons_of_mem x hz))
    have hrew : List.intercalate (d :: pad) (x :: y :: ys) =
        x ++ d :: (pad ++ List.intercalate (d :: pad) (y :: ys)) := by
      simp [List.intercalate, List.intersperse]
    obtain ⟨p, ps, h1, h2⟩ := cutAt_append sep pad (List.intercalate (d :: pad) (y :: ys)) hpad
    rw [hy] at h1
    obtain ⟨q, qs, h3, h4⟩ := cutAt_append sep x
      (d :: (pad ++ List.intercalate (d :: pad) (y :: ys))) (hx x (List.mem_cons_self x _))
    simp only [cutAt, hd, if_true, List.cons.injEq] at h3
    rw [hrew, h4, ← h3.1, ← h3.2, h2]
    simp only [List.cons.injEq] at h1
    simp [← h1.1, ← h1.2]

theorem trimChars_pad (pad y : List Char) (hpad : ∀ c ∈ pad, isJsWhiteSpace c = true)
    (hne : y ≠ []) (hh : ∀ c, y.head? = some c → isJsWhiteSpace c = false)
    (hl : ∀ c, y.getLast? = some c → isJsWhiteSpace c = false) :
    trimChars (pad ++ y) = y := by
  have h1 : (pad ++ y).dropWhile isJsWhiteSpace = y := by
    induction pad with
    | nil =>
      cases y with
      | nil => exact absurd rfl hne
      | cons c y => simp [List.dropWhile_cons, hh c rfl]
    | cons c pad ih =>
      simp only [List.cons_append, List.dropWhile_cons, hpad c (List.mem_cons_self c pad), if_true]
      exact ih (fun d hd => hpad d (List.mem_cons_of_mem c hd))
  have h2 : y.reverse.dropWhile isJsWhiteSpace = y.reverse := by
    cases hr : y.reverse with
    | nil => rfl
    | cons c r =>
      have : y.getLast? = some c := by rw [← List.head?_reverse, hr]; rfl
      simp [List.dropWhile_cons, hl c this]
  simp [trimChars, h1, h2]

theorem roundtrip_pieces (sep : Char → Bool) (d : Char) (pad : List Char) (hd : sep d = true)
    (hpad : ∀ c ∈ pad, sep c = false) (hws : ∀ c ∈ pad, isJsWhiteSpace c = true)
    (xs : List String) (hx : ∀ x ∈ xs, Clean sep x) :
    (((cutAt sep (List.intercalate (d :: pad) (xs.map String.data))).map String.mk).map
      jsTrim).filter (fun p => p != "") = xs := by
  have key : ∀ ys : List String, (∀ y ∈ ys, Clean sep y) → ∀ pad : List Char,
      (∀ c ∈ pad, isJsWhiteSpace c = true) →
      ((((ys.map String.data).map (fun y => pad ++ y)).map String.mk).map jsTrim).filter
        (fun p => p != "") = ys := by
    intro ys hys pad hws
    induction ys with
    | nil => rfl
    | cons y ys ih =>
      obtain ⟨h1, h2, h3, _⟩ := hys y (List.mem_cons_self y ys)
      have hne : y.data ≠ [] := fun h => h1 (String.ext h)
      have ht : jsTrim (String.mk (pad ++ y.data)) = y := by
        simp only [jsTrim]
        rw [trimChars_pad pad y.data hws hne h2 h3]
      have hb : (y != "") = true := by simpa using h1
      simp only [List.map_cons, List.filter_cons, ht, hb, if_true]
      rw [ih (fun z hz => hys z (List.mem_cons_of_mem y hz))]
  cases xs with
  | nil =>
    show List.filter (fun p => p != "") (List.map jsTrim (List.map String.mk [[]])) = []
    decide
  | cons x xs =>
    rw [List.map_cons, cutAt_intercalate sep d pad hd hpad x.data (xs.map String.data)]
    · obtain ⟨h1, h2, h3, _⟩ := hx x (List.mem_cons_self x xs)
      have hne : x.data ≠ [] := fun h => h1 (String.ext h)
      have ht : jsTrim (String.mk x.data) = x := by
        simp only [jsTrim]
        have := trimChars_pad [] x.data (by simp) hne h2 h3
        simp only [List.nil_append] at this
        rw [this]
      have hb : (x != "") = true := by simpa using h1
      simp only [List.map_cons, List.filter_cons, ht, hb, if_true]
      rw [key xs (fun z hz => hx z (List.mem_cons_of_mem x hz)) pad hws]
    · intro y hy
      rcases List.mem_cons.1 hy with rfl | hy
      · exact (hx x (List.mem_cons_self x xs)).2.2.2
      · obtain ⟨z, hz, rfl⟩ := List.mem_map.1 hy
        exact (hx z (List.mem_cons_of_mem x hz)).2.2.2

theorem parseList_join (xs : List String) (hx : ∀ x ∈ xs, Clean (fun c => c == '\n') x) :
    parseList (jsJoin "\n" xs) = xs := by
  rw [parseList, parse_eq_cut]
  exact roundtrip_pieces _ '\n' [] (by decide) (by simp) (by simp) xs hx

theorem parseTags_join (ts : List String)
    (ht : ∀ t ∈ ts, Clean (fun c => c == ',' || c == '\n') t) :
    parseTags (jsJoin ", " ts) = ts := by
  rw [parseTags, parse_eq_cut]
  exact roundtrip_pieces _ ',' [' '] (by decide) (by decide) (by decide) ts ht

/-! ## The request wrapper -/

theorem api_request_log {α : Type} (env : Env) (json : String → Except String α)
    (path : String) (options : Options) (log : List Request) :
    (api.request env json path options log).2 =
      log ++ [⟨path, options.method, jsonHeader :: options.headers, options.body⟩] := by
  unfold api.request
  simp only [jsonHeader]
  split
  · rfl
  · split
    · rfl
    · split <;> rfl

/-- C6: whatever response `api.request` receives: a status that is not a
success status fails with the body text, or with "Request failed" when the
body is empty; status 204 yields `none` whatever the body and the decoder
are; every other success status yields the decoded body. -/
theorem api_request_response {α : Type} (env : Env) (json : String → Except String α)
    (path : String) (options : Options) (log : List Request) (response : Response)
    (h : env.fetch log ⟨path, options.method, jsonHeader :: options.headers, options.body⟩ =
      .ok response) :
    (response.ok = false → response.body ≠ "" →
      (api.request env json path options log).1 = .error response.body) ∧
    (response.ok = false → response.body = "" →
      (api.request env json path options log).1 = .error "Request failed") ∧
    (response.status = 204 → (api.request env json path options log).1 = .ok none) ∧
    (response.ok = true → response.status ≠ 204 →
      (api.request env json path options log).1 = (json response.body).map some) := by
  simp only [jsonHeader] at h
  refine ⟨?_, ?_, ?_, ?_⟩
  · intro hok hb
    simp [api.request, h, hok, strTruthy, hb]
  · intro hok hb
    simp [api.request, h, hok, strTruthy, hb]
  · intro hs
    have hok : response.ok = true := by simp [Response.ok, hs]
    simp [api.request, h, hok, hs]
  · intro hok hs
    simp [api.request, h, hok, hs]

theorem api_request_response_witness :
    (api.request failEnv failEnv.jsonAny "/recipes/" {} []).1 = .error "boom" ∧
    (api.request (constEnv (.ok ⟨404, ""⟩) [] ⟨"", []⟩) okEnv.jsonAny "/recipes/" {} []).1 =
      .error "Request failed" ∧
    (api.request (constEnv (.ok ⟨204, "x"⟩) [] ⟨"", []⟩)
      (fun _ => (Except.error "bad json" : Except String Unit)) "/recipes/" {} []).1 = .ok none ∧
    (api.request okEnv okEnv.jsonRecipes "/recipes/" {} []).1 = .ok (some [soupRecipe]) :=
  ⟨(api_request_response failEnv failEnv.jsonAny "/recipes/" {} [] ⟨500, "boom"⟩ rfl).1
      (by decide) (by decide),
   (api_request_response (constEnv (.ok ⟨404, ""⟩) [] ⟨"", []⟩) okEnv.jsonAny "/recipes/" {} []
      ⟨404, ""⟩ rfl).2.1 (by decide) rfl,
   (api_request_response (constEnv (.ok ⟨204, "x"⟩) [] ⟨"", []⟩)
      (fun _ => (Except.error "bad json" : Except String Unit)) "/recipes/" {} []
      ⟨204, "x"⟩ rfl).2.2.1 rfl,
   (api_request_response okEnv okEnv.jsonRecipes "/recipes/" {} [] ⟨200, "{}"⟩ rfl).2.2.2
      (by decide) (by decide)⟩

/-! ## Reload -/

theorem listRecipes_log (env : Env) (log : List Request) :
    (api.listRecipes env log).2 = log ++ [listRequest] :=
  api_request_log env env.jsonRecipes "/recipes/" {} log

/-- Reloading never throws, issues exactly the list request, and touches
nothing but the grid. -/
theorem loadRecipes_frame (env : Env) (s : Page) :
    ∃ grid, loadRecipes env s =
      (.ok (), { s with log := s.log ++ [listRequest], recipeGrid := grid }) := by
  have hlog := listRecipes_log env s.log
  simp only [loadRecipes]
  split
  · rename_i recipes log1 hr
    rw [hr] at hlog
    simp only at hlog
    subst hlog
    split
    · exact ⟨_, rfl⟩
    · exact ⟨_, rfl⟩
  · rename_i log1 hr
    rw [hr] at hlog
    simp only at hlog
    subst hlog
    exact ⟨_, rfl⟩
  · rename_i m log1 hr
    rw [hr] at hlog
    simp only at hlog
    subst hlog
    exact ⟨_, rfl⟩

/-- C8: the grid after a reload, by the result of the catalog fetch: the empty
list gives only the "no recipes" placeholder; a non-empty list gives one card
per recipe, in the order of the list, the i-th card showing the title of the
i-th recipe; a failure with message `m` gives only the failure placeholder,
which contains `m`; and the catalog holding the one recipe "Soup" with id 1
gives exactly one card, titled "Soup". -/
theorem loadRecipes_grid (env : Env) (s : Page) :
    ((api.listRecipes env s.log).1 = .ok (some []) →
      (loadRecipes env s).2.recipeGrid =
        [Node.markup "<p>No recipes yet. Start by creating one.</p>"]) ∧
    (∀ rs : List Recipe, rs ≠ [] → (api.listRecipes env s.log).1 = .ok (some rs) →
      (loadRecipes env s).2.recipeGrid = rs.map (fun r => Node.card (createCard r)) ∧
      (loadRecipes env s).2.recipeGrid.length = rs.length ∧
      ∀ (i : Nat) (r : Recipe), rs[i]? = some r →
        ∃ c, (loadRecipes env s).2.recipeGrid[i]? = some (Node.card c) ∧ c.title = r.title) ∧
    (∀ m : String, (api.listRecipes env s.log).1 = .error m →
      (loadRecipes env s).2.recipeGrid =
        [Node.markup ("<p class=\"status\">Failed to load recipes: " ++ m ++ "</p>")]) ∧
    (loadRecipes okEnv Page.start).2.recipeGrid.map
      (fun n => match n with | Node.card c => some c.title | Node.markup _ => none) =
        [some "Soup"] := by
  refine ⟨?_, ?_, ?_, by decide⟩
  · intro h
    simp only [loadRecipes]
    split
    · rename_i recipes log1 hr
      rw [hr] at h
      simp only [Except.ok.injEq, Option.some.injEq] at h
      subst h
      simp [noRecipesMarkup]
    · rename_i log1 hr
      rw [hr] at h
      simp at h
    · rename_i m log1 hr
      rw [hr] at h
      simp at h
  · intro rs hne h
    have hgrid : (loadRecipes env s).2.recipeGrid = rs.map (fun r => Node.card (createCard r)) := by
      simp only [loadRecipes]
      split
      · rename_i recipes log1 hr
        rw [hr] at h
        simp only [Except.ok.injEq, Option.some.injEq] at h
        subst h
        have hlen : (recipes.length == 0) = false := by
          cases recipes with
          | nil => exact absurd rfl hne
          | cons a l => rfl
        simp [hlen]
      · rename_i log1 hr
        rw [hr] at h
        simp at h
      · rename_i m log1 hr
        rw [hr] at h
        simp at h
    refine ⟨hgrid, by rw [hgrid, List.length_map], ?_⟩
    intro i r hi
    exact ⟨createCard r, by rw [hgrid, List.getElem?_map, hi]; rfl, rfl⟩
  · intro m h
    simp only [loadRecipes]
    split
    · rename_i recipes log1 hr
      rw [hr] at h
      simp at h
    · rename_i log1 hr
      rw [hr] at h
      simp at h
    · rename_i m2 log1 hr
      rw [hr] at h
      simp only [Except.error.injEq] at h
      subst h
      simp [loadFailureMarkup]

theorem loadRecipes_grid_witness :
    (loadRecipes (constEnv (.ok ⟨200, "[]"⟩) [] ⟨"", []⟩) Page.start).2.recipeGrid =
      [Node.markup "<p>No recipes yet. Start by creating one.</p>"] ∧
    (loadRecipes okEnv Page.start).2.recipeGrid = [Node.card (createCard soupRecipe)] ∧
    (loadRecipes failEnv Page.start).2.recipeGrid =
      [Node.markup "<p class=\"status\">Failed to load recipes: boom</p>"] :=
  ⟨(loadRecipes_grid (constEnv (.ok ⟨200, "[]"⟩) [] ⟨"", []⟩) Page.start).1 rfl,
   ((loadRecipes_grid okEnv Page.start).2.1 [soupRecipe] (by decide) rfl).1,
   (loadRecipes_grid failEnv Page.start).2.2.1 "boom" rfl⟩

/-! ## Submit -/

theorem issued_append (s : Page) (r : Except String Unit) (t : Page) (reqs : List Request)
    (h : t.log = s.log ++ reqs) : issued s (r, t) = reqs := by
  simp [issued, h]

theorem submitCall_log (env : Env) (s : Page) (payload : Payload) :
    (submitCall env s payload).2 = s.log ++ [submitRequest s payload] := by
  unfold submitCall submitRequest
  by_cases h : s.editingId.truthy = true
  · simp only [h, if_true]
    exact api_request_log env env.jsonRecipe _ _ s.log
  · simp only [h]
    exact api_request_log env env.jsonRecipe _ _ s.log

theorem submit_of_failure (env : Env) (s : Page) (m : String)
    (h : (submitCall env s (buildPayload s.form)).1 = .error m) :
    submit env s = (.ok (), { s with
      log := s.log ++ [submitRequest s (buildPayload s.form)], formStatus := m }) := by
  have hlog := submitCall_log env s (buildPayload s.form)
  have hsame : submitCall env { s with formStatus := "Saving..." } (buildPayload s.form) =
      submitCall env s (buildPayload s.form) := rfl
  simp only [submit, hsame]
  rcases hc : submitCall env s (buildPayload s.form) with ⟨r, log1⟩
  rw [hc] at h hlog
  simp only at h hlog
  subst h hlog
  rfl

theorem submit_of_success (env : Env) (s : Page)
    (h : (submitCall env s (buildPayload s.form)).1 = .ok ()) :
    ∃ grid, submit env s = (.ok (), { s with
      log := s.log ++ [submitRequest s (buildPayload s.form)] ++ [listRequest],
      recipeGrid := grid, form := env.formDefaults, editingId := JsId.null,
      formTitle := "Create Recipe", cancelEditHidden := true, formStatus := "" }) := by
  have hlog := submitCall_log env s (buildPayload s.form)
  have hsame : submitCall env { s with formStatus := "Saving..." } (buildPayload s.form) =
      submitCall env s (buildPayload s.form) := rfl
  obtain ⟨grid, hg⟩ := loadRecipes_frame env (resetForm env
    { s with log := s.log ++ [submitRequest s (buildPayload s.form)], formStatus := "Saved!" })
  refine ⟨grid, ?_⟩
  simp only [submit, hsame]
  rcases hc : submitCall env s (buildPayload s.form) with ⟨r, log1⟩
  rw [hc] at h hlog
  simp only at h hlog
  subst h hlog
  simp only [hg]
  rfl

/-- With no edit target, a submit whose request succeeds issues the create
call and the reload, and nothing else. -/
theorem submit_create_when_none (env : Env) (s : Page) (hnone : s.editingId = JsId.null)
    (h : (api.createRecipe env (buildPayload s.form) s.log).1.map (fun _ => ()) = .ok ()) :
    issued s (submit env s) = [createRequest (buildPayload s.form), listRequest] ∧
    (submit env s).2.editingId = JsId.null := by
  have hc : (submitCall env s (buildPayload s.form)).1 = .ok () := by
    simp only [submitCall, hnone, JsId.truthy]
    exact h
  obtain ⟨grid, hg⟩ := submit_of_success env s hc
  rw [hg]
  refine ⟨issued_append s _ _ _ ?_, rfl⟩
  simp [submitRequest, hnone, JsId.truthy]

/-- After `handleEdit` of a recipe whose id is truthy, a submit whose request
succeeds issues the update call for that id and the reload, and nothing else,
and clears the edit target. -/
theorem submit_update_when_truthy (env : Env) (recipe : Recipe) (s : Page)
    (hid : recipe.id.truthy = true)
    (h : (api.updateRecipe env recipe.id (buildPayload (handleEdit recipe s).form)
      (handleEdit recipe s).log).1.map (fun _ => ()) = .ok ()) :
    issued (handleEdit recipe s) (submit env (handleEdit recipe s)) =
      [updateRequest recipe.id (buildPayload (handleEdit recipe s).form), listRequest] ∧
    (submit env (handleEdit recipe s)).2.editingId = JsId.null := by
  have hed : (handleEdit recipe s).editingId = recipe.id := rfl
  have hc : (submitCall env (handleEdit recipe s) (buildPayload (handleEdit recipe s).form)).1 =
      .ok () := by
    simp only [submitCall, hed, hid, if_true]
    exact h
  obtain ⟨grid, hg⟩ := submit_of_success env (handleEdit recipe s) hc
  rw [hg]
  refine ⟨issued_append _ _ _ _ ?_, rfl⟩
  simp [submitRequest, hed, hid]

/-- C1, at the failing input: after `handleEdit` of a catalog recipe whose id
is the number 0 the edit target is that id and the form is titled "Edit
Recipe", yet a submit whose request succeeds issues a create call and no
update call. -/
theorem submit_after_edit_zero_id_creates :
    (handleEdit zeroIdRecipe Page.start).editingId = JsId.num 0 ∧
    (handleEdit zeroIdRecipe Page.start).formTitle = "Edit Recipe" ∧
    issued (handleEdit zeroIdRecipe Page.start)
        (submit okEnv (handleEdit zeroIdRecipe Page.start)) =
      [createRequest ⟨"Soup", none, ["water"], ["boil"], ["easy"]⟩, listRequest] ∧
    (issued (handleEdit zeroIdRecipe Page.start)
        (submit okEnv (handleEdit zeroIdRecipe Page.start))).any Request.isUpdate = false := by
  decide

/-- C9: when the create or update request of a submit fails with message `m`,
the listener completes, the edit target and every form field are as before,
the status text is `m`, and the only request issued is the failed one: no
reload, the grid is untouched. -/
theorem submit_failure_keeps_session (env : Env) (s : Page) (m : String)
    (h : (submitCall env s (buildPayload s.form)).1 = .error m) :
    (submit env s).1 = .ok () ∧
    (submit env s).2.editingId = s.editingId ∧
    (submit env s).2.form = s.form ∧
    (submit env s).2.formStatus = m ∧
    (submit env s).2.recipeGrid = s.recipeGrid ∧
    issued s (submit env s) = [submitRequest s (buildPayload s.form)] ∧
    listRequest ∉ issued s (submit env s) := by
  rw [submit_of_failure env s m h]
  have hi : issued s (Except.ok (), { s with
      log := s.log ++ [submitRequest s (buildPayload s.form)], formStatus := m }) =
      [submitRequest s (buildPayload s.form)] := issued_append s _ _ _ rfl
  refine ⟨rfl, rfl, rfl, rfl, rfl, hi, ?_⟩
  rw [hi]
  by_cases ht : s.editingId.truthy = true
  · simp [submitRequest, ht, listRequest, updateRequest]
  · simp [submitRequest, ht, listRequest, createRequest]

theorem submit_failure_keeps_session_witness :
    (submit failEnv (handleEdit soupRecipe Page.start)).2.editingId = JsId.num 1 ∧
    (submit failEnv (handleEdit soupRecipe Page.start)).2.form =
      (handleEdit soupRecipe Page.start).form ∧
    (submit failEnv (handleEdit soupRecipe Page.start)).2.formStatus = "boom" :=
  have h := submit_failure_keeps_session failEnv (handleEdit soupRecipe Page.start) "boom" rfl
  ⟨h.2.1, h.2.2.1, h.2.2.2.1⟩

/-! ## Conversation -/

theorem chat_log (env : Env) (messages : List Turn) (apiKey : String) (log : List Request) :
    (api.chat env messages apiKey log).2 = log ++ [chatRequest messages apiKey] :=
  api_request_log env env.jsonChat _ _ log

/-- C5: with an empty credential (the trimmed key field) `askKitchenPal`
issues no request, leaves the transcript as it is and shows "Enter your OpenAI
API key."; with a non-empty credential and an empty prompt (the trimmed prompt
field) it issues no request, leaves the transcript as it is and shows "Ask a
question first.". -/
theorem ask_validation (env : Env) (s : Page) :
    (jsTrim s.openaiKeyInput = "" →
      (askKitchenPal env s).1 = .ok () ∧
      issued s (askKitchenPal env s) = [] ∧
      (askKitchenPal env s).2.chatHistory = s.chatHistory ∧
      (askKitchenPal env s).2.chatStatus = "Enter your OpenAI API key.") ∧
    (jsTrim s.openaiKeyInput ≠ "" → jsTrim s.chatPrompt = "" →
      (askKitchenPal env s).1 = .ok () ∧
      issued s (askKitchenPal env s) = [] ∧
      (askKitchenPal env s).2.chatHistory = s.chatHistory ∧
      (askKitchenPal env s).2.chatStatus = "Ask a question first.") := by
  constructor
  · intro hk
    have : askKitchenPal env s = (.ok (), { s with chatStatus := "Enter your OpenAI API key." }) := by
      simp [askKitchenPal, strTruthy, hk]
    rw [this]
    exact ⟨rfl, issued_append s _ _ [] (by simp), rfl, rfl⟩
  · intro hk hp
    have : askKitchenPal env s = (.ok (), { s with chatStatus := "Ask a question first." }) := by
      simp [askKitchenPal, strTruthy, hk, hp]
    rw [this]
    exact ⟨rfl, issued_append s _ _ [] (by simp), rfl, rfl⟩

theorem ask_validation_witness :
    (askKitchenPal okEnv { Page.start with chatPrompt := "prompt" }).2.chatStatus =
      "Enter your OpenAI API key." ∧
    issued { Page.start with chatPrompt := "prompt" }
      (askKitchenPal okEnv { Page.start with chatPrompt := "prompt" }) = [] ∧
    (askKitchenPal okEnv { Page.start with openaiKeyInput := "key" }).2.chatStatus =
      "Ask a question first." ∧
    issued { Page.start with openaiKeyInput := "key" }
      (askKitchenPal okEnv { Page.start with openaiKeyInput := "key" }) = [] :=
  have h1 := (ask_validation okEnv { Page.start with chatPrompt := "prompt" }).1 (by decide)
  have h2 := (ask_validation okEnv { Page.start with openaiKeyInput := "key" }).2
    (by decide) (by decide)
  ⟨h1.2.2.2, h1.2.1, h2.2.2.2, h2.2.1⟩

/-- The page `askKitchenPal` leaves when both fields are non-empty after
trimming, by the outcome of the chat call. -/
theorem ask_sends (env : Env) (s : Page) (hk : jsTrim s.openaiKeyInput ≠ "")
    (hp : jsTrim s.chatPrompt ≠ "") :
    (askKitchenPal env s).1 = .ok () ∧
    (askKitchenPal env s).2.log = s.log ++
      [chatRequest (s.chatHistory ++ [Turn.mk "user" (jsTrim s.chatPrompt)])
        (jsTrim s.openaiKeyInput)] ∧
    (askKitchenPal env s).2.chatBtnDisabled = false ∧
    (∀ response, (api.chat env (s.chatHistory ++ [Turn.mk "user" (jsTrim s.chatPrompt)])
        (jsTrim s.openaiKeyInput) s.log).1 = .ok (some response) →
      (askKitchenPal env s).2.chatHistory = s.chatHistory ++
        [Turn.mk "user" (jsTrim s.chatPrompt), Turn.mk "assistant" response.reply] ∧
      (askKitchenPal env s).2.chatStatus = "") ∧
    ((api.chat env (s.chatHistory ++ [Turn.mk "user" (jsTrim s.chatPrompt)])
        (jsTrim s.openaiKeyInput) s.log).1 = .ok none →
      (askKitchenPal env s).2.chatHistory =
        s.chatHistory ++ [Turn.mk "user" (jsTrim s.chatPrompt)] ∧
      (askKitchenPal env s).2.chatStatus = env.nullDeref) ∧
    (∀ m, (api.chat env (s.chatHistory ++ [Turn.mk "user" (jsTrim s.chatPrompt)])
        (jsTrim s.openaiKeyInput) s.log).1 = .error m →
      (askKitchenPal env s).2.chatHistory =
        s.chatHistory ++ [Turn.mk "user" (jsTrim s.chatPrompt)] ∧
      (askKitchenPal env s).2.chatStatus = m) := by
  have hlog := chat_log env (s.chatHistory ++ [Turn.mk "user" (jsTrim s.chatPrompt)])
    (jsTrim s.openaiKeyInput) s.log
  have h1 : strTruthy (jsTrim s.openaiKeyInput) = true := by simp [strTruthy, hk]
  have h2 : strTruthy (jsTrim s.chatPrompt) = true := by simp [strTruthy, hp]
  simp only [askKitchenPal, h1, h2, Bool.not_true, Bool.false_eq_true, if_false]
  rcases hc : api.chat env (s.chatHistory ++ [Turn.mk "user" (jsTrim s.chatPrompt)])
    (jsTrim s.openaiKeyInput) s.log with ⟨r, log1⟩
  rw [hc] at hlog
  simp only at hlog
  subst hlog
  rcases r with m | (_ | response)
  · simp
  · simp
  · by_cases hl : (response.suggestions.length == 0) = true <;> simp [renderSuggestions, hl]

/-- C4: for every prior transcript, non-empty credential and non-empty
prompt `p` (the trimmed fields), `askKitchenPal` sends to the chat endpoint
exactly the transcript followed by the user turn of `p`; when the call
succeeds with a reply the transcript afterwards is the prior one followed by
that user turn and the assistant turn of the reply; when the call fails it is
the prior one followed by the user turn only; the prior transcript is always
a prefix of the new one. -/
theorem ask_transcript (env : Env) (s : Page) (p : String)
    (hk : jsTrim s.openaiKeyInput ≠ "") (hp : jsTrim s.chatPrompt = p) (hne : p ≠ "") :
    issued s (askKitchenPal env s) =
      [chatRequest (s.chatHistory ++ [Turn.mk "user" p]) (jsTrim s.openaiKeyInput)] ∧
    (∀ response, (api.chat env (s.chatHistory ++ [Turn.mk "user" p])
        (jsTrim s.openaiKeyInput) s.log).1 = .ok (some response) →
      (askKitchenPal env s).2.chatHistory =
        s.chatHistory ++ [Turn.mk "user" p, Turn.mk "assistant" response.reply]) ∧
    (∀ m, (api.chat env (s.chatHistory ++ [Turn.mk "user" p])
        (jsTrim s.openaiKeyInput) s.log).1 = .error m →
      (askKitchenPal env s).2.chatHistory = s.chatHistory ++ [Turn.mk "user" p]) ∧
    s.chatHistory <+: (askKitchenPal env s).2.chatHistory := by
  subst hp
  obtain ⟨_, hlog, _, hok, hnull, herr⟩ := ask_sends env s hk hne
  refine ⟨?_, fun response h => (hok response h).1, fun m h => (herr m h).1, ?_⟩
  · simp [issued, hlog]
  · rcases hc : (api.chat env (s.chatHistory ++ [Turn.mk "user" (jsTrim s.chatPrompt)])
      (jsTrim s.openaiKeyInput) s.log).1 with m | (_ | response)
    · rw [(herr m hc).1]
      exact List.prefix_append _ _
    · rw [(hnull hc).1]
      exact List.prefix_append _ _
    · rw [(hok response hc).1]
      exact List.prefix_append _ _

theorem ask_transcript_witness :
    (askKitchenPal okEnv { Page.start with openaiKeyInput := "key", chatPrompt := "soup?" }
      ).2.chatHistory = [Turn.mk "user" "soup?", Turn.mk "assistant" "Try soup."] ∧
    (askKitchenPal failEnv { Page.start with openaiKeyInput := "key", chatPrompt := "soup?" }
      ).2.chatHistory = [Turn.mk "user" "soup?"] :=
  ⟨(ask_transcript okEnv { Page.start with openaiKeyInput := "key", chatPrompt := "soup?" }
      "soup?" (by decide) (by decide) (by decide)).2.1 ⟨"Try soup.", []⟩ rfl,
   (ask_transcript failEnv { Page.start with openaiKeyInput := "key", chatPrompt := "soup?" }
      "soup?" (by decide) (by decide) (by decide)).2.2.1 "boom" rfl⟩

/-! ## Failures at the action boundary -/

/-- A failed chat call is caught: the listener completes and the message is the
chat status text. -/
theorem ask_failure_surfaced (env : Env) (s : Page) (m : String)
    (hk : jsTrim s.openaiKeyInput ≠ "") (hp : jsTrim s.chatPrompt ≠ "")
    (h : (api.chat env (s.chatHistory ++ [Turn.mk "user" (jsTrim s.chatPrompt)])
      (jsTrim s.openaiKeyInput) s.log).1 = .error m) :
    (askKitchenPal env s).1 = .ok () ∧ (askKitchenPal env s).2.chatStatus = m :=
  ⟨(ask_sends env s hk hp).1, ((ask_sends env s hk hp).2.2.2.2.2 m h).2⟩

/-- A failed promotion is caught: the listener completes and the message is
shown in a notification. -/
theorem saveClick_failure_surfaced (env : Env) (s : Page) (i : Nat) (card : SuggestionCard)
    (m : String) (hcard : s.chatSuggestions.get? i = some card)
    (h : (api.saveChatRecipe env card.recipe s.log).1 = .error m) :
    (saveClick env i s).1 = .ok () ∧
    (saveClick env i s).2.alerts = s.alerts ++ ["Failed to save recipe: " ++ m] ∧
    (saveClick env i s).2.chatSuggestions = s.chatSuggestions := by
  simp only [saveClick, hcard]
  rcases hc : api.saveChatRecipe env card.recipe s.log with ⟨r, log1⟩
  rw [hc] at h
  simp only at h
  subst h
  exact ⟨rfl, rfl, rfl⟩

/-- A failed delete is not caught: the failure escapes the listener and no
status text or notification is written. -/
theorem deleteClick_failure_escapes (env : Env) (recipe : Recipe) (s : Page) (m : String)
    (hconfirm : env.confirm ("Delete " ++ recipe.title ++ "?") = true)
    (h : (api.deleteRecipe env recipe.id s.log).1 = .error m) :
    deleteClick env recipe s = (.error m, { s with log := s.log ++ [deleteRequest recipe.id] }) := by
  have hlog : (api.deleteRecipe env recipe.id s.log).2 = s.log ++ [deleteRequest recipe.id] :=
    api_request_log env env.jsonAny _ _ s.log
  simp only [deleteClick, hconfirm, Bool.not_true, Bool.false_eq_true, if_false]
  rcases hc : api.deleteRecipe env recipe.id s.log with ⟨r, log1⟩
  rw [hc] at h hlog
  simp only at h hlog
  subst h hlog
  rfl

/-- C7, at the failing input: the user confirms the deletion of the recipe
"Soup" and the server refuses with the body "boom": the failure escapes the
delete listener, and no status text, notification or grid content carries the
message; the page differs only by the issued request. -/
theorem deleteClick_failure_not_caught :
    deleteClick failEnv soupRecipe Page.start =
      (.error "boom", { Page.start with log := [deleteRequest (JsId.num 1)] }) ∧
    (deleteClick failEnv soupRecipe Page.start).2.alerts = [] ∧
    (deleteClick failEnv soupRecipe Page.start).2.formStatus = "" ∧
    (deleteClick failEnv soupRecipe Page.start).2.chatStatus = "" ∧
    (deleteClick failEnv soupRecipe Page.start).2.recipeGrid = [] :=
  ⟨rfl, rfl, rfl, rfl, rfl⟩

/-! ## Edit, then submit -/

/-- C10: a list of clean lines survives `join("\n")` then `parseList`; a list
of clean tags survives `join(", ")` then `parseTags`; hence for a recipe whose
lists are clean, `handleEdit` followed by a submit sends, as its first and
only mutating request, a payload whose ingredients, steps and tags are those
of the recipe. -/
theorem edit_submit_preserves_lists :
    (∀ xs : List String, (∀ x ∈ xs, Clean (fun c => c == '\n') x) →
      parseList (jsJoin "\n" xs) = xs) ∧
    (∀ ts : List String, (∀ t ∈ ts, Clean (fun c => c == ',' || c == '\n') t) →
      parseTags (jsJoin ", " ts) = ts) ∧
    (∀ (env : Env) (recipe : Recipe) (s : Page),
      (∀ x ∈ recipe.ingredients, Clean (fun c => c == '\n') x) →
      (∀ x ∈ recipe.steps, Clean (fun c => c == '\n') x) →
      (∀ t ∈ recipe.tags, Clean (fun c => c == ',' || c == '\n') t) →
      ∃ request payload,
        (issued (handleEdit recipe s) (submit env (handleEdit recipe s))).head? = some request ∧
        request.body = Body.payload payload ∧
        payload.ingredients = recipe.ingredients ∧
        payload.steps = recipe.steps ∧
        payload.tags = recipe.tags) := by
  refine ⟨parseList_join, parseTags_join, ?_⟩
  intro env recipe s hi hs ht
  refine ⟨submitRequest (handleEdit recipe s) (buildPayload (handleEdit recipe s).form),
    buildPayload (handleEdit recipe s).form, ?_, ?_, ?_, ?_, ?_⟩
  · rcases hc : (submitCall env (handleEdit recipe s)
      (buildPayload (handleEdit recipe s).form)).1 with m | u
    · rw [submit_of_failure env _ m hc]
      rw [issued_append _ _ _ [submitRequest (handleEdit recipe s)
        (buildPayload (handleEdit recipe s).form)] rfl]
      rfl
    · obtain ⟨grid, hg⟩ := submit_of_success env (handleEdit recipe s) hc
      rw [hg]
      rw [issued_append _ _ _ ([submitRequest (handleEdit recipe s)
        (buildPayload (handleEdit recipe s).form)] ++ [listRequest])
        (List.append_assoc _ _ _)]
      rfl
  · unfold submitRequest
    split <;> rfl
  · exact parseList_join recipe.ingredients hi
  · exact parseList_join recipe.steps hs
  · exact parseTags_join recipe.tags ht

/-- A decidable check that establishes `Clean`. -/
theorem clean_of_check (sep : Char → Bool) (x : String)
    (h : (x != "" && x.data.head?.all (fun c => !isJsWhiteSpace c) &&
      x.data.getLast?.all (fun c => !isJsWhiteSpace c) && x.data.all (fun c => !sep c)) = true) :
    Clean sep x := by
  simp only [Bool.and_eq_true, bne_iff_ne, ne_eq, List.all_eq_true, Bool.not_eq_true'] at h
  obtain ⟨⟨⟨h1, h2⟩, h3⟩, h4⟩ := h
  refine ⟨h1, ?_, ?_, h4⟩
  · intro c hc
    rw [hc] at h2
    simpa using h2
  · intro c hc
    rw [hc] at h3
    simpa using h3

theorem edit_submit_preserves_lists_witness :
    parseList (jsJoin "\n" ["2 eggs", "salt"]) = ["2 eggs", "salt"] ∧
    parseTags (jsJoin ", " ["easy", "hot"]) = ["easy", "hot"] ∧
    ∃ request payload,
      (issued (handleEdit soupRecipe Page.start)
        (submit okEnv (handleEdit soupRecipe Page.start))).head? = some request ∧
      request.body = Body.payload payload ∧
      payload.ingredients = ["water", "salt"] ∧
      payload.steps = ["boil"] ∧
      payload.tags = ["easy", "hot"] :=
  ⟨edit_submit_preserves_lists.1 ["2 eggs", "salt"] (by
      intro x hx
      simp only [List.mem_cons, List.mem_singleton, List.not_mem_nil, or_false] at hx
      rcases hx with rfl | rfl <;> exact clean_of_check _ _ (by decide)),
   edit_submit_preserves_lists.2.1 ["easy", "hot"] (by
      intro x hx
      simp only [List.mem_cons, List.mem_singleton, List.not_mem_nil, or_false] at hx
      rcases hx with rfl | rfl <;> exact clean_of_check _ _ (by decide)),
   edit_submit_preserves_lists.2.2 okEnv soupRecipe Page.start
    (by
      intro x hx
      simp only [soupRecipe, List.mem_cons, List.mem_singleton, List.not_mem_nil, or_false] at hx
      rcases hx with rfl | rfl <;> exact clean_of_check _ _ (by decide))
    (by
      intro x hx
      simp only [soupRecipe, List.mem_cons, List.mem_singleton, List.not_mem_nil, or_false] at hx
      subst hx
      exact clean_of_check _ _ (by decide))
    (by
      intro x hx
      simp only [soupRecipe, List.mem_cons, List.mem_singleton, List.not_mem_nil, or_false] at hx
      rcases hx with rfl | rfl <;> exact clean_of_check _ _ (by decide))⟩

end KitchenPal
